import Mathlib

/-!
Verification of the rq-go binding layer (Go bindings for a RaptorQ
erasure-coding library) against its natural-language specification.

The Go source (`raptorq.go`) is a thin session-management layer over an
external codec library reached through FFI.  The Go layer is embedded
directly: each exported function becomes a Lean function that is
parametric in the results the FFI calls would return, and additionally
reports the list of FFI calls it performed.  The parts of the system
that live behind the FFI boundary (session allocation and validation,
the block-oriented encode/decode engine, the block-size planner) are
modelled from the specification; each such definition carries a doc
comment starting with `Modelled from the spec:`.
-/

namespace RqGo

/-! ### Byte sequences and generic helpers -/

/-- A byte sequence; bytes are modelled as natural numbers. -/
abbrev Bytes := List Nat

/-- Fuel-indexed chunking: split a list into consecutive chunks of
size `n` (the final chunk may be shorter).  The fuel argument makes the
recursion structural; `chunk` instantiates it with the list length. -/
def chunkAux {α : Type} : Nat → Nat → List α → List (List α)
  | 0, _, _ => []
  | fuel + 1, n, xs =>
    if xs.isEmpty ∨ n = 0 then []
    else xs.take n :: chunkAux fuel n (xs.drop n)

/-- Split a list into consecutive chunks of size `n`. -/
def chunk {α : Type} (n : Nat) (xs : List α) : List (List α) :=
  chunkAux xs.length n xs

/-- Pair each element of a list with a key, keys counting up from `sid`. -/
def tag {α : Type} (sid : Nat) : List α → List (Nat × α)
  | [] => []
  | s :: rest => (sid, s) :: tag (sid + 1) rest

/-- Lookup of a key in an association list (first match wins); this is
how the decoder locates a symbol file by its identifier. -/
def storeLookup {α : Type} (k : Nat) : List (Nat × α) → Option α
  | [] => none
  | e :: rest => if e.1 = k then some e.2 else storeLookup k rest

/-- A concrete content-hash function over byte sequences, standing in
for the integrity hash the block processor computes. -/
def hashOf (bs : Bytes) : Nat :=
  bs.foldl (fun h b => h * 131 + b + 1) 17

/-! ### Data model of the Go layer (from `raptorq.go`) -/

/-- `RaptorQProcessor`: a processing session handle.  `SessionID = 0`
means the session is closed/freed. -/
structure Processor where
  SessionID : Nat
deriving Repr, DecidableEq

/-- `ProcessorConfig`: configuration of a session. -/
structure ProcessorConfig where
  symbolSize : Nat
  redundancyFactor : Nat
  maxMemoryMB : Nat
  concurrencyLimit : Nat
deriving Repr, DecidableEq

/-- `Block`: per-block metadata as reported to Go callers. -/
structure Block where
  BlockID : Nat
  EncoderParameters : Bytes
  OriginalOffset : Nat
  Size : Nat
  SymbolsCount : Nat
  SourceSymbolsCount : Nat
  Hash : String
deriving Repr, DecidableEq

/-- `ProcessResult`: report returned from encode / metadata calls. -/
structure ProcessResult where
  TotalSymbolsCount : Nat
  TotalRepairSymbols : Nat
  SymbolsDirectory : String
  Blocks : List Block
  LayoutFilePath : String
deriving Repr, DecidableEq

/-- One call through the FFI boundary into the underlying library.
The Go functions below report the list of such calls they perform, so
that "fails before invoking any underlying operation" is expressible. -/
inductive FFICall where
  | encodeFile (sid : Nat) (inputPath outputDir : String) (blockSize : Nat)
  | createMetadata (sid : Nat) (inputPath layoutFile : String) (blockSize : Nat)
  | decodeSymbols (sid : Nat) (symbolsDir outputPath layoutPath : String)
  | freeSession (sid : Nat)
  | getLastError (sid : Nat)
  | getRecommendedBlockSize (sid : Nat) (fileSize : Nat)
deriving Repr, DecidableEq

/-! ### The Go functions of `raptorq.go`

Each function is parametric in the values the FFI calls it makes would
return (`code` for the status code of the main call, `lastErr` for the
per-session last-error text, `freeRes` for the result of
`raptorq_free_session`, ...), and returns its Go-level result paired
with the list of FFI calls it performed. -/

/-- `getLastError` from `raptorq.go`: returns "Session closed" for a
closed session; otherwise queries the library ( `lastErr` returning
`none` models a nonzero status from `raptorq_get_last_error`). -/
def getLastErrorGo (lastErr : Nat → Option String) (p : Processor) :
    String × List FFICall :=
  if p.SessionID = 0 then ("Session closed", [])
  else
    match lastErr p.SessionID with
    | some s => (s, [FFICall.getLastError p.SessionID])
    | none => ("Error retrieving error message", [FFICall.getLastError p.SessionID])

/-- `EncodeFile` from `raptorq.go`: checks the session, calls
`raptorq_encode_file`, and maps the status code to a Go error exactly
as the source's `switch` does (`pr` is the parsed `ProcessResult` of a
successful call). -/
def EncodeFile (code : Int) (pr : ProcessResult) (lastErr : Nat → Option String)
    (p : Processor) (inputPath outputDir : String) (blockSize : Nat) :
    Except String ProcessResult × List FFICall :=
  if p.SessionID = 0 then (Except.error "RaptorQ session is closed", [])
  else
    let call := FFICall.encodeFile p.SessionID inputPath outputDir blockSize
    if code = 0 then (Except.ok pr, [call])
    else if code = -1 then (Except.error "generic error", [call])
    else if code = -2 then (Except.error "invalid parameters", [call])
    else if code = -3 then (Except.error "invalid response (JSON serialization error)", [call])
    else if code = -4 then (Except.error "result buffer too small", [call])
    else if code = -5 then (Except.error "invalid session", [call])
    else
      let le := getLastErrorGo lastErr p
      if code = -11 then (Except.error ("IO error: " ++ le.1), call :: le.2)
      else if code = -12 then (Except.error ("file not found: " ++ le.1), call :: le.2)
      else if code = -13 then (Except.error ("encoding failed: " ++ le.1), call :: le.2)
      else if code = -15 then (Except.error ("memory limit exceeded: " ++ le.1), call :: le.2)
      else if code = -16 then (Except.error ("concurrency limit reached: " ++ le.1), call :: le.2)
      else (Except.error ("unknown error code " ++ toString code ++ ": " ++ le.1), call :: le.2)

/-- `CreateMetadata` from `raptorq.go`: same shape as `EncodeFile` but
with the metadata call's status-code table (note `-13` is "invalid
path", `-14` "encoding failed", `-16` memory, `-17` concurrency). -/
def CreateMetadata (code : Int) (pr : ProcessResult) (lastErr : Nat → Option String)
    (p : Processor) (inputPath layoutFile : String) (blockSize : Nat) :
    Except String ProcessResult × List FFICall :=
  if p.SessionID = 0 then (Except.error "RaptorQ session is closed", [])
  else
    let call := FFICall.createMetadata p.SessionID inputPath layoutFile blockSize
    if code = 0 then (Except.ok pr, [call])
    else if code = -1 then (Except.error "generic error", [call])
    else if code = -2 then (Except.error "invalid parameters", [call])
    else if code = -3 then (Except.error "invalid response (JSON serialization error)", [call])
    else if code = -4 then (Except.error "result buffer too small", [call])
    else if code = -5 then (Except.error "invalid session", [call])
    else
      let le := getLastErrorGo lastErr p
      if code = -11 then (Except.error ("IO error: " ++ le.1), call :: le.2)
      else if code = -12 then (Except.error ("file not found: " ++ le.1), call :: le.2)
      else if code = -13 then (Except.error ("invalid path: " ++ le.1), call :: le.2)
      else if code = -14 then (Except.error ("encoding failed: " ++ le.1), call :: le.2)
      else if code = -16 then (Except.error ("memory limit exceeded: " ++ le.1), call :: le.2)
      else if code = -17 then (Except.error ("concurrency limit reached: " ++ le.1), call :: le.2)
      else (Except.error ("unknown error code " ++ toString code ++ ": " ++ le.1), call :: le.2)

/-- `DecodeSymbols` from `raptorq.go`: session check, then the
empty-argument validation, then `raptorq_decode_symbols` with its
status-code table. -/
def DecodeSymbols (code : Int) (lastErr : Nat → Option String)
    (p : Processor) (symbolsDir outputPath layoutPath : String) :
    Except String Unit × List FFICall :=
  if p.SessionID = 0 then (Except.error "RaptorQ session is closed", [])
  else if symbolsDir = "" ∨ outputPath = "" ∨ layoutPath = "" then
    (Except.error "symbolsDir, outputPath, and layoutPath cannot be empty", [])
  else
    let call := FFICall.decodeSymbols p.SessionID symbolsDir outputPath layoutPath
    if code = 0 then (Except.ok (), [call])
    else if code = -1 then (Except.error "generic error", [call])
    else if code = -2 then (Except.error "invalid parameters", [call])
    else if code = -3 then (Except.error "invalid response", [call])
    else if code = -4 then (Except.error "bad return buffer size", [call])
    else if code = -5 then (Except.error "invalid session", [call])
    else
      let le := getLastErrorGo lastErr p
      if code = -11 then (Except.error ("IO error: " ++ le.1), call :: le.2)
      else if code = -12 then (Except.error ("file not found: " ++ le.1), call :: le.2)
      else if code = -14 then (Except.error ("decoding failed: " ++ le.1), call :: le.2)
      else if code = -15 then (Except.error ("memory limit exceeded: " ++ le.1), call :: le.2)
      else if code = -16 then (Except.error ("concurrency limit reached: " ++ le.1), call :: le.2)
      else (Except.error ("unknown error code " ++ toString code ++ ": " ++ le.1), call :: le.2)

/-- `Free` from `raptorq.go`: on an open session it calls
`raptorq_free_session`; on success it unregisters the session id from
the process-wide registry and zeroes `SessionID`.  On a closed session
it returns `false` without any FFI call.  Returns
(result, updated processor, updated registry, FFI calls). -/
def Free (freeRes : Nat → Bool) (p : Processor) (reg : List Nat) :
    Bool × Processor × List Nat × List FFICall :=
  if p.SessionID ≠ 0 then
    if freeRes p.SessionID then
      (true, ⟨0⟩, reg.erase p.SessionID, [FFICall.freeSession p.SessionID])
    else (false, p, reg, [FFICall.freeSession p.SessionID])
  else (false, p, reg, [])

/-- `GetRecommendedBlockSize` from `raptorq.go`: returns `0` for a
closed session, otherwise the value of
`raptorq_get_recommended_block_size` (here the parameter `rbs`). -/
def GetRecommendedBlockSize (rbs : Nat → Nat) (p : Processor) (fileSize : Nat) : Nat :=
  if p.SessionID = 0 then 0 else rbs fileSize

/-! ### Spec-modelled parts of the underlying library

The session allocator, the block-size planner and the block-oriented
encode/decode engine live in the Rust library behind the FFI boundary
and are not part of this repository's sources; they are modelled here
from the specification. -/

/-- Modelled from the spec: validity of a configuration — "symbol size
(bytes, 1–65535), redundancy factor (positive integer), memory budget
(bytes), concurrency limit (positive integer) — all validated at
session-open time", with "non-zero memory budget" required by the
session-open contract. -/
def validConfig (cfg : ProcessorConfig) : Prop :=
  1 ≤ cfg.symbolSize ∧ cfg.symbolSize ≤ 65535 ∧ 0 < cfg.redundancyFactor ∧
    0 < cfg.maxMemoryMB ∧ 0 < cfg.concurrencyLimit

instance (cfg : ProcessorConfig) : Decidable (validConfig cfg) := by
  unfold validConfig
  infer_instance

/-- A session id distinct from every id currently registered, and
nonzero. -/
def freshSessionId (reg : List Nat) : Nat :=
  reg.foldr max 0 + 1

/-- Modelled from the spec: `raptorq_init_session` (not in this
repository's sources) — "validates symbol size bounds, non-zero memory
budget, non-zero concurrency limit; allocates a resource-tracking
context"; it returns a fresh nonzero handle on success and `0` on an
invalid configuration. -/
def raptorq_init_session (cfg : ProcessorConfig) (reg : List Nat) : Nat :=
  if validConfig cfg then freshSessionId reg else 0

/-- `NewRaptorQProcessor` from `raptorq.go`, over the spec-modelled
session allocator: a zero session id becomes an error; a nonzero id is
registered in the process-wide registry and wrapped in a processor. -/
def NewRaptorQProcessor (cfg : ProcessorConfig) (reg : List Nat) :
    Except String Processor × List Nat :=
  let sid := raptorq_init_session cfg reg
  if sid = 0 then (Except.error "failed to initialize RaptorQ session", reg)
  else (Except.ok ⟨sid⟩, sid :: reg)

/-- Modelled from the spec: `raptorq_get_recommended_block_size` (not
in this repository's sources) — block size chosen so that peak memory
for one block stays within the memory budget divided by the concurrency
limit, never degenerate: a file smaller than one natural block becomes
exactly one block, and the result is never `0` for a live session. -/
def recommendedBlockSize (cfg : ProcessorConfig) (fileSize : Nat) : Nat :=
  max 1 (min fileSize
    (cfg.maxMemoryMB * 1048576 / (cfg.concurrencyLimit * (1 + cfg.redundancyFactor))))

/-! ### Spec-modelled block-oriented encode/decode engine -/

/-- The opaque encoder-parameter blob the codec primitive produces.
Modelled from the spec: the codec is a black box whose internals are
out of scope; the engine stores and returns this value verbatim.  In
the model the blob carries what the primitive needs to reconstruct: the
block bytes and the source-symbol threshold `k`. -/
structure CodecParams where
  blob : Bytes
  k : Nat
deriving Repr, DecidableEq

/-- Modelled from the spec: the codec primitive's
`encode(bytes, symbol_size, redundancy_factor) →
(encoder_parameters, symbol_set)` — the symbol set is the source
symbols (chunks of the block) followed by `redundancy_factor` repair
symbols per source symbol. -/
def codecEncode (ss rf : Nat) (data : Bytes) : CodecParams × List Bytes :=
  (⟨data, (chunk ss data).length⟩,
    chunk ss data ++ (List.range (rf * (chunk ss data).length)).map (fun _ => data.take ss))

/-- Modelled from the spec: the codec primitive's
`decode(encoder_parameters, symbol_set) → bytes |
insufficient_symbols_error` — reconstruction succeeds from any
sufficiently large symbol subset (at least the source-symbol threshold)
and fails otherwise. -/
def codecDecode (p : CodecParams) (syms : List Bytes) : Option Bytes :=
  if syms.length < p.k then none else some p.blob

/-- A block record of the layout document (spec section 6): block id,
opaque encoder parameters, original offset and size, the ordered
symbol identifiers, the source-symbol count, and the content hash. -/
structure BlockRecord where
  blockId : Nat
  encoderParameters : CodecParams
  originalOffset : Nat
  size : Nat
  symbols : List Nat
  sourceSymbolsCount : Nat
  hash : Nat
deriving Repr, DecidableEq

/-- The persisted symbol files: an association of symbol identifier to
symbol contents. -/
abbrev Store := List (Nat × Bytes)

/-- The symbols produced for one block. -/
def mkSyms (ss rf : Nat) (data : Bytes) : List Bytes :=
  (codecEncode ss rf data).2

/-- Modelled from the spec: the block processor's record for one block
— codec parameters, offset, size, identifiers of this block's symbols
(keys counting up from `sid`), source count, and content hash. -/
def mkRecord (ss rf bid off sid : Nat) (data : Bytes) : BlockRecord :=
  { blockId := bid
    encoderParameters := (codecEncode ss rf data).1
    originalOffset := off
    size := data.length
    symbols := (tag sid (mkSyms ss rf data)).map Prod.fst
    sourceSymbolsCount := (codecEncode ss rf data).1.k
    hash := hashOf data }

/-- Modelled from the spec: the encode path over a list of blocks,
threading block id, file offset and next symbol id; returns the layout
(ordered block records) and the store of written symbol files. -/
def encodeBlocks (ss rf : Nat) : List Bytes → Nat → Nat → Nat → List BlockRecord × Store
  | [], _, _, _ => ([], [])
  | b :: bs, bid, off, sid =>
    (mkRecord ss rf bid off sid b ::
        (encodeBlocks ss rf bs (bid + 1) (off + b.length) (sid + (mkSyms ss rf b).length)).1,
      tag sid (mkSyms ss rf b) ++
        (encodeBlocks ss rf bs (bid + 1) (off + b.length) (sid + (mkSyms ss rf b).length)).2)

/-- Modelled from the spec: the block planner's partition of a file —
consecutive blocks of the given size; a `0`-byte file still yields one
(empty) block. -/
def blocksOf (blockSize : Nat) (F : Bytes) : List Bytes :=
  if F.isEmpty then [[]] else chunk blockSize F

/-- The block size actually used: a caller-supplied `0` means "use the
session's recommended block size". -/
def effectiveBlockSize (cfg : ProcessorConfig) (blockSize fileSize : Nat) : Nat :=
  if blockSize = 0 then recommendedBlockSize cfg fileSize else blockSize

/-- Modelled from the spec: `raptorq_encode_file`'s effect (not in this
repository's sources) — partition the file into blocks, encode each,
and publish the layout document and symbol store. -/
def encodeFileModel (cfg : ProcessorConfig) (blockSize : Nat) (F : Bytes) :
    List BlockRecord × Store :=
  encodeBlocks cfg.symbolSize cfg.redundancyFactor
    (blocksOf (effectiveBlockSize cfg blockSize F.length) F) 0 0 0

/-- Decode-side failure conditions of the engine. -/
inductive DecodeError where
  | insufficientSymbols (blockId : Nat)
  | integrityViolation (blockId : Nat)
  | decodingFailed (blockId : Nat)
deriving Repr, DecidableEq

/-- The symbols of a block that are actually present in the store,
located by their identifiers. -/
def gathered (store : Store) (r : BlockRecord) : List Bytes :=
  r.symbols.filterMap (fun i => storeLookup i store)

/-- Modelled from the spec: decoding one block — gather the symbols by
identifier, fail with `insufficientSymbols` naming the block when the
gathered count is below the source-symbol threshold, otherwise invoke
the codec primitive with the block's encoder parameters and verify the
content hash of the reconstructed bytes. -/
def decodeBlock (store : Store) (r : BlockRecord) : Except DecodeError Bytes :=
  if (gathered store r).length < r.sourceSymbolsCount then
    Except.error (DecodeError.insufficientSymbols r.blockId)
  else
    match codecDecode r.encoderParameters (gathered store r) with
    | none => Except.error (DecodeError.decodingFailed r.blockId)
    | some data =>
      if hashOf data = r.hash then Except.ok data
      else Except.error (DecodeError.integrityViolation r.blockId)

/-- Write `data` into `out` at offset `off` (zero-padding any gap). -/
def writeAt (out : Bytes) (off : Nat) (data : Bytes) : Bytes :=
  out.take off ++ List.replicate (off - out.length) 0 ++ data ++ out.drop (off + data.length)

/-- Modelled from the spec: the decoder orchestrator — process the
layout's blocks in order, aborting the whole decode on the first
failing block (no output is produced on failure), writing each verified
block at its recorded offset. -/
def decodeBlocks (store : Store) : List BlockRecord → Bytes → Except DecodeError Bytes
  | [], out => Except.ok out
  | r :: rs, out =>
    match decodeBlock store r with
    | Except.error e => Except.error e
    | Except.ok data => decodeBlocks store rs (writeAt out r.originalOffset data)

/-- Modelled from the spec: `raptorq_decode_symbols`'s effect — read
the layout document and reconstruct the output file from the symbol
store. -/
def decodeSymbolsModel (store : Store) (layout : List BlockRecord) : Except DecodeError Bytes :=
  decodeBlocks store layout []

/-- Rendering of an engine failure into the error text the binding
surfaces (`raptorq.go` maps decode failures to "decoding failed: "
followed by the library's last-error text). -/
def renderDecodeError : DecodeError → String
  | DecodeError.insufficientSymbols bid =>
      "decoding failed: insufficient symbols in block " ++ toString bid
  | DecodeError.integrityViolation bid =>
      "decoding failed: integrity violation in block " ++ toString bid
  | DecodeError.decodingFailed bid =>
      "decoding failed: block " ++ toString bid

/-- `EncodeFile` composed with the spec-modelled engine: the session
check from `raptorq.go` in front of `encodeFileModel` (the file bytes
stand for the contents of `inputPath`). -/
def EncodeFileM (p : Processor) (cfg : ProcessorConfig) (blockSize : Nat) (F : Bytes) :
    Except String (List BlockRecord × Store) :=
  if p.SessionID = 0 then Except.error "RaptorQ session is closed"
  else Except.ok (encodeFileModel cfg blockSize F)

/-- `DecodeSymbols` composed with the spec-modelled engine: the session
check from `raptorq.go` in front of `decodeSymbolsModel`. -/
def DecodeSymbolsM (p : Processor) (store : Store) (layout : List BlockRecord) :
    Except String Bytes :=
  if p.SessionID = 0 then Except.error "RaptorQ session is closed"
  else
    match decodeSymbolsModel store layout with
    | Except.ok out => Except.ok out
    | Except.error e => Except.error (renderDecodeError e)

/-! ### The process-wide session registry as a state machine -/

/-- Process-wide state: the processors handed out so far and the
`sessions` registry of `raptorq.go`. -/
structure SysState where
  procs : List Processor
  registry : List Nat
deriving Repr, DecidableEq

/-- Operations that touch (or could touch) the registry: creating a
processor, freeing the `i`-th processor (with the underlying library's
free result `ffiOk`), and any other operation (encode/decode/metadata
calls never modify the registry). -/
inductive Op where
  | create (cfg : ProcessorConfig)
  | free (i : Nat) (ffiOk : Bool)
  | work
deriving Repr, DecidableEq

/-- One step of the system: exactly `NewRaptorQProcessor` and `Free`
modify the registry, as in `raptorq.go`; registry accesses are atomic
(the Go code guards them with `sessionMutex`). -/
def stepOp (s : SysState) : Op → SysState
  | Op.create cfg =>
    match NewRaptorQProcessor cfg s.registry with
    | (Except.ok p, reg) => ⟨s.procs ++ [p], reg⟩
    | (Except.error _, reg) => ⟨s.procs, reg⟩
  | Op.free i ffiOk =>
    match s.procs[i]? with
    | none => s
    | some p =>
      let r := Free (fun _ => ffiOk) p s.registry
      ⟨s.procs.set i r.2.1, r.2.2.1⟩
  | Op.work => s

/-- Run a sequence of operations from the initial (empty) state. -/
def runOps (ops : List Op) : SysState :=
  ops.foldl stepOp ⟨[], []⟩

/-- The session ids of processors that are currently live (created and
not successfully freed). -/
def liveIds (ps : List Processor) : List Nat :=
  ps.filterMap (fun p => if p.SessionID = 0 then none else some p.SessionID)

/-! ### Substring containment for error-message claims -/

/-- The error text `msg` contains the underlying cause text `cause`
as a contiguous substring. -/
def includesText (msg cause : String) : Prop :=
  List.IsInfix cause.data msg.data

instance (msg cause : String) : Decidable (includesText msg cause) := by
  unfold includesText
  infer_instance

/-! ### Lemmas about chunking -/

theorem join_chunkAux {α : Type} (n : Nat) (hn : 0 < n) :
    ∀ (fuel : Nat) (xs : List α), xs.length ≤ fuel → (chunkAux fuel n xs).flatten = xs := by
  intro fuel
  induction fuel with
  | zero =>
    intro xs hxs
    have hx : xs = [] := List.eq_nil_of_length_eq_zero (Nat.le_zero.mp hxs)
    subst hx
    rfl
  | succ fuel ih =>
    intro xs hxs
    rw [chunkAux]
    by_cases hx : xs.isEmpty ∨ n = 0
    · rw [if_pos hx]
      rcases hx with hx | hx
      · cases xs with
        | nil => rfl
        | cons a l => simp [List.isEmpty] at hx
      · omega
    · rw [if_neg hx]
      have hxe : ¬ xs.isEmpty := fun h => hx (Or.inl h)
      have hlen : 0 < xs.length := by
        cases xs with
        | nil => simp [List.isEmpty] at hxe
        | cons a l => simp
      have hdrop : (xs.drop n).length ≤ fuel := by
        rw [List.length_drop]
        omega
      rw [List.flatten_cons, ih (xs.drop n) hdrop]
      exact List.take_append_drop n xs

theorem join_chunk {α : Type} (n : Nat) (hn : 0 < n) (xs : List α) :
    (chunk n xs).flatten = xs :=
  join_chunkAux n hn xs.length xs le_rfl

theorem join_blocksOf (blockSize : Nat) (hb : 0 < blockSize) (F : Bytes) :
    (blocksOf blockSize F).flatten = F := by
  rw [blocksOf]
  by_cases hF : F.isEmpty
  · rw [if_pos hF]
    cases F with
    | nil => rfl
    | cons a l => simp [List.isEmpty] at hF
  · rw [if_neg hF]
    exact join_chunk blockSize hb F

theorem recommendedBlockSize_pos (cfg : ProcessorConfig) (fileSize : Nat) :
    0 < recommendedBlockSize cfg fileSize := by
  rw [recommendedBlockSize]
  omega

theorem effectiveBlockSize_pos (cfg : ProcessorConfig) (blockSize fileSize : Nat) :
    0 < effectiveBlockSize cfg blockSize fileSize := by
  rw [effectiveBlockSize]
  by_cases h : blockSize = 0
  · rw [if_pos h]
    exact recommendedBlockSize_pos cfg fileSize
  · rw [if_neg h]
    omega

/-! ### Lemmas about the symbol store -/

theorem storeLookup_tag {α : Type} :
    ∀ (syms : List α) (sid j : Nat) (hj : j < syms.length),
      storeLookup (sid + j) (tag sid syms) = some (syms.get ⟨j, hj⟩) := by
  intro syms
  induction syms with
  | nil => intro sid j hj; exact absurd hj (by simp)
  | cons s rest ih =>
    intro sid j hj
    cases j with
    | zero => simp [tag, storeLookup]
    | succ j =>
      have hne : ¬ (sid = sid + (j + 1)) := by omega
      have harg : sid + (j + 1) = (sid + 1) + j := by omega
      simp only [tag, storeLookup, if_neg hne]
      rw [harg, ih (sid + 1) j (by simpa using Nat.lt_of_succ_lt_succ hj)]
      simp

theorem keys_tag {α : Type} :
    ∀ (syms : List α) (sid : Nat) (e : Nat × α), e ∈ tag sid syms →
      sid ≤ e.1 ∧ e.1 < sid + syms.length := by
  intro syms
  induction syms with
  | nil => intro sid e he; simp [tag] at he
  | cons s rest ih =>
    intro sid e he
    rw [tag, List.mem_cons] at he
    rcases he with he | he
    · subst he; simp
    · have := ih (sid + 1) e he
      constructor <;> [omega; (simp only [List.length_cons]; omega)]

theorem storeLookup_append_right {α : Type} (k : Nat) :
    ∀ (A B : List (Nat × α)), (∀ e ∈ A, e.1 ≠ k) →
      storeLookup k (A ++ B) = storeLookup k B := by
  intro A
  induction A with
  | nil => intro B _; rfl
  | cons e A ih =>
    intro B hA
    rw [List.cons_append, storeLookup, if_neg (hA e (List.mem_cons_self e A))]
    exact ih B (fun e' he' => hA e' (List.mem_cons_of_mem e he'))

theorem storeLookup_append_left {α : Type} (k : Nat) (v : α) :
    ∀ (A B : List (Nat × α)), storeLookup k A = some v →
      storeLookup k (A ++ B) = some v := by
  intro A
  induction A with
  | nil => intro B h; simp [storeLookup] at h
  | cons e A ih =>
    intro B h
    rw [storeLookup] at h
    rw [List.cons_append, storeLookup]
    by_cases he : e.1 = k
    · rwa [if_pos he] at h ⊢
    · rw [if_neg he] at h ⊢
      exact ih B h

theorem gather_tag {α : Type} :
    ∀ (syms : List α) (sid : Nat) (S : List (Nat × α)),
      (∀ (j : Nat) (hj : j < syms.length),
        storeLookup (sid + j) S = some (syms.get ⟨j, hj⟩)) →
      ((tag sid syms).map Prod.fst).filterMap (fun i => storeLookup i S) = syms := by
  intro syms
  induction syms with
  | nil => intro sid S _; rfl
  | cons s rest ih =>
    intro sid S hS
    have h0 : storeLookup sid S = some s := by
      have := hS 0 (by simp)
      simpa using this
    simp only [tag, List.map_cons, List.filterMap_cons, h0]
    rw [ih (sid + 1) S ?hrest]
    case hrest =>
      intro j hj
      have harg : (sid + 1) + j = sid + (j + 1) := by omega
      rw [harg, hS (j + 1) (by simpa using Nat.succ_lt_succ hj)]
      simp

/-! ### Lemmas about the encode/decode engine -/

theorem mkSyms_length (ss rf : Nat) (b : Bytes) :
    (mkSyms ss rf b).length = (chunk ss b).length + rf * (chunk ss b).length := by
  simp [mkSyms, codecEncode]

theorem gathered_mkRecord (ss rf bid off sid : Nat) (b : Bytes)
    (P rest : Store) (hP : ∀ e ∈ P, e.1 < sid) :
    gathered (P ++ (tag sid (mkSyms ss rf b) ++ rest)) (mkRecord ss rf bid off sid b)
      = mkSyms ss rf b := by
  show ((tag sid (mkSyms ss rf b)).map Prod.fst).filterMap _ = _
  apply gather_tag
  intro j hj
  rw [storeLookup_append_right (sid + j) P _ (fun e he => by have := hP e he; omega)]
  exact storeLookup_append_left (sid + j) _ _ rest (storeLookup_tag (mkSyms ss rf b) sid j hj)

theorem decodeBlock_eq_of_wf (S : Store) (r : BlockRecord)
    (hk : r.encoderParameters.k = r.sourceSymbolsCount)
    (hh : r.hash = hashOf r.encoderParameters.blob) :
    decodeBlock S r =
      if (gathered S r).length < r.sourceSymbolsCount then
        Except.error (DecodeError.insufficientSymbols r.blockId)
      else Except.ok r.encoderParameters.blob := by
  rw [decodeBlock]
  by_cases h : (gathered S r).length < r.sourceSymbolsCount
  · rw [if_pos h, if_pos h]
  · rw [if_neg h, if_neg h, codecDecode, if_neg (by rw [hk]; exact h)]
    show (if hashOf r.encoderParameters.blob = r.hash then _ else _) = _
    rw [if_pos hh.symm]

theorem decodeBlock_encoded (ss rf bid off sid : Nat) (b : Bytes) (P rest : Store)
    (hP : ∀ e ∈ P, e.1 < sid) :
    decodeBlock (P ++ (tag sid (mkSyms ss rf b) ++ rest)) (mkRecord ss rf bid off sid b)
      = Except.ok b := by
  rw [decodeBlock_eq_of_wf _ _ rfl rfl]
  rw [gathered_mkRecord ss rf bid off sid b P rest hP]
  rw [if_neg ?hge]
  · rfl
  case hge =>
    rw [mkSyms_length]
    show ¬ _ < (chunk ss b).length
    omega

theorem writeAt_at_end (out data : Bytes) :
    writeAt out out.length data = out ++ data := by
  rw [writeAt, List.take_length, Nat.sub_self]
  rw [List.drop_eq_nil_of_le (by omega)]
  simp

theorem decodeBlocks_encodeBlocks (ss rf : Nat) :
    ∀ (bs : List Bytes) (bid off sid : Nat) (P : Store) (out : Bytes),
      (∀ e ∈ P, e.1 < sid) → out.length = off →
      decodeBlocks (P ++ (encodeBlocks ss rf bs bid off sid).2)
          (encodeBlocks ss rf bs bid off sid).1 out
        = Except.ok (out ++ bs.flatten) := by
  intro bs
  induction bs with
  | nil =>
    intro bid off sid P out hP hout
    simp [encodeBlocks, decodeBlocks]
  | cons b bs ih =>
    intro bid off sid P out hP hout
    subst hout
    rw [encodeBlocks]
    rw [decodeBlocks]
    rw [decodeBlock_encoded ss rf bid out.length sid b P _ hP]
    show decodeBlocks _ _ (writeAt out out.length b) = _
    rw [writeAt_at_end]
    rw [← List.append_assoc]
    rw [ih (bid + 1) (out.length + b.length) (sid + (mkSyms ss rf b).length)
        (P ++ tag sid (mkSyms ss rf b)) (out ++ b) ?hkeys ?hlen]
    · rw [List.flatten_cons, List.append_assoc]
    case hkeys =>
      intro e he
      rw [List.mem_append] at he
      rcases he with he | he
      · have := hP e he; omega
      · have := keys_tag (mkSyms ss rf b) sid e he; omega
    case hlen =>
      rw [List.length_append]

theorem roundtrip_model (cfg : ProcessorConfig) (blockSize : Nat) (F : Bytes) :
    decodeSymbolsModel (encodeFileModel cfg blockSize F).2 (encodeFileModel cfg blockSize F).1
      = Except.ok F := by
  rw [decodeSymbolsModel, encodeFileModel]
  have h := decodeBlocks_encodeBlocks cfg.symbolSize cfg.redundancyFactor
    (blocksOf (effectiveBlockSize cfg blockSize F.length) F) 0 0 0 [] []
    (by intro e he; simp at he) rfl
  rw [List.nil_append] at h
  rw [h]
  rw [join_blocksOf _ (effectiveBlockSize_pos cfg blockSize F.length) F]
  rfl

/-! ### Lemmas about decode failure on insufficient symbols -/

theorem encodeBlocks_records_shape (ss rf : Nat) :
    ∀ (bs : List Bytes) (bid off sid : Nat) (r : BlockRecord),
      r ∈ (encodeBlocks ss rf bs bid off sid).1 →
      ∃ a c d b, r = mkRecord ss rf a c d b := by
  intro bs
  induction bs with
  | nil => intro bid off sid r hr; simp [encodeBlocks] at hr
  | cons b bs ih =>
    intro bid off sid r hr
    rw [encodeBlocks] at hr
    rw [List.mem_cons] at hr
    rcases hr with hr | hr
    · exact ⟨bid, off, sid, b, hr⟩
    · exact ih _ _ _ r hr

theorem decodeBlocks_insufficient (ss rf : Nat) (S : Store) :
    ∀ (layout : List BlockRecord) (out : Bytes),
      (∀ r ∈ layout, ∃ a c d b, r = mkRecord ss rf a c d b) →
      (∃ r ∈ layout, (gathered S r).length < r.sourceSymbolsCount) →
      ∃ r' ∈ layout, (gathered S r').length < r'.sourceSymbolsCount ∧
        decodeBlocks S layout out
          = Except.error (DecodeError.insufficientSymbols r'.blockId) := by
  intro layout
  induction layout with
  | nil =>
    intro out _ hdef
    rcases hdef with ⟨r, hr, _⟩
    simp at hr
  | cons r rs ih =>
    intro out hshape hdef
    by_cases hr : (gathered S r).length < r.sourceSymbolsCount
    · refine ⟨r, List.mem_cons_self r rs, hr, ?_⟩
      rw [decodeBlocks, decodeBlock, if_pos hr]
    · obtain ⟨a, c, d, b, hrm⟩ := hshape r (List.mem_cons_self r rs)
      have hok : decodeBlock S r = Except.ok r.encoderParameters.blob := by
        rw [hrm, decodeBlock_eq_of_wf _ _ rfl rfl, if_neg (hrm ▸ hr)]
      have hdef' : ∃ r' ∈ rs, (gathered S r').length < r'.sourceSymbolsCount := by
        rcases hdef with ⟨r', hr', hd'⟩
        rw [List.mem_cons] at hr'
        rcases hr' with rfl | hr'
        · exact absurd hd' hr
        · exact ⟨r', hr', hd'⟩
      obtain ⟨r', hr', hd', heq⟩ :=
        ih (writeAt out r.originalOffset r.encoderParameters.blob)
          (fun q hq => hshape q (List.mem_cons_of_mem r hq)) hdef'
      refine ⟨r', List.mem_cons_of_mem r hr', hd', ?_⟩
      rw [decodeBlocks, hok]
      exact heq

/-! ### Lemmas about the session registry state machine -/

theorem mem_liveIds (ps : List Processor) (id : Nat) :
    id ∈ liveIds ps ↔ ∃ p, p ∈ ps ∧ p.SessionID = id ∧ id ≠ 0 := by
  rw [liveIds, List.mem_filterMap]
  constructor
  · rintro ⟨p, hp, hf⟩
    by_cases h : p.SessionID = 0
    · rw [if_pos h] at hf; cases hf
    · rw [if_neg h] at hf
      obtain rfl := Option.some.inj hf
      exact ⟨p, hp, rfl, h⟩
  · rintro ⟨p, hp, rfl, hne⟩
    exact ⟨p, hp, by rw [if_neg hne]⟩

theorem liveIds_cons (q : Processor) (ps : List Processor) :
    liveIds (q :: ps) =
      if q.SessionID = 0 then liveIds ps else q.SessionID :: liveIds ps := by
  by_cases h : q.SessionID = 0
  · rw [if_pos h]; simp [liveIds, List.filterMap_cons, h]
  · rw [if_neg h]; simp [liveIds, List.filterMap_cons, h]

theorem liveIds_append_single (ps : List Processor) (p : Processor) :
    liveIds (ps ++ [p]) =
      liveIds ps ++ (if p.SessionID = 0 then [] else [p.SessionID]) := by
  by_cases h : p.SessionID = 0
  · rw [if_pos h]; simp [liveIds, List.filterMap_append, List.filterMap_cons, h]
  · rw [if_neg h]; simp [liveIds, List.filterMap_append, List.filterMap_cons, h]

theorem le_foldr_max : ∀ (l : List Nat), ∀ x ∈ l, x ≤ l.foldr max 0 := by
  intro l
  induction l with
  | nil => intro x hx; simp at hx
  | cons a l ih =>
    intro x hx
    rw [List.mem_cons] at hx
    rw [List.foldr_cons]
    rcases hx with rfl | hx
    · exact Nat.le_max_left _ _
    · exact Nat.le_trans (ih x hx) (Nat.le_max_right _ _)

theorem freshSessionId_not_mem (reg : List Nat) : freshSessionId reg ∉ reg := by
  intro h
  have := le_foldr_max reg _ h
  rw [freshSessionId] at this
  omega

theorem freshSessionId_ne_zero (reg : List Nat) : freshSessionId reg ≠ 0 := by
  rw [freshSessionId]
  omega

theorem mem_of_getIdx {α : Type} :
    ∀ (l : List α) (i : Nat) (a : α), l[i]? = some a → a ∈ l := by
  intro l
  induction l with
  | nil => intro i a h; simp at h
  | cons q l ih =>
    intro i a h
    cases i with
    | zero =>
      simp at h
      subst h
      exact List.mem_cons_self q l
    | succ i =>
      simp at h
      exact List.mem_cons_of_mem q (ih i a h)

theorem set_self_of_getIdx :
    ∀ (ps : List Processor) (i : Nat) (p : Processor),
      ps[i]? = some p → ps.set i p = ps := by
  intro ps
  induction ps with
  | nil => intro i p h; simp at h
  | cons q ps ih =>
    intro i p h
    cases i with
    | zero =>
      simp at h
      subst h
      rfl
    | succ i =>
      simp at h
      show q :: ps.set i p = q :: ps
      rw [ih i p h]

theorem liveIds_set_zero (d : Nat) (hd : d ≠ 0) :
    ∀ (ps : List Processor) (i : Nat), ps[i]? = some ⟨d⟩ → (liveIds ps).Nodup →
      (liveIds (ps.set i ⟨0⟩)).Nodup ∧
        ∀ id, id ∈ liveIds (ps.set i ⟨0⟩) ↔ id ≠ d ∧ id ∈ liveIds ps := by
  intro ps
  induction ps with
  | nil => intro i h _; simp at h
  | cons q ps ih =>
    intro i h hnd
    cases i with
    | zero =>
      have hq : q = ⟨d⟩ := by simpa using h
      subst hq
      show (liveIds (Processor.mk 0 :: ps)).Nodup ∧ _
      rw [liveIds_cons, if_pos rfl]
      rw [liveIds_cons, if_neg hd] at hnd
      rw [List.nodup_cons] at hnd
      refine ⟨hnd.2, ?_⟩
      intro id
      rw [liveIds_cons, if_neg hd, List.mem_cons]
      constructor
      · intro hm
        exact ⟨fun he => hnd.1 (he ▸ hm), Or.inr hm⟩
      · rintro ⟨hne, rfl | hm⟩
        · exact absurd rfl hne
        · exact hm
    | succ i =>
      simp only [List.getElem?_cons_succ] at h
      have hset : (q :: ps).set (i + 1) (⟨0⟩ : Processor) = q :: ps.set i ⟨0⟩ := rfl
      rw [hset]
      rw [liveIds_cons] at hnd ⊢
      by_cases hq : q.SessionID = 0
      · rw [if_pos hq] at hnd ⊢
        obtain ⟨hnd', hiff⟩ := ih i h hnd
        refine ⟨hnd', ?_⟩
        intro id
        rw [liveIds_cons, if_pos hq]
        exact hiff id
      · rw [if_neg hq] at hnd ⊢
        rw [List.nodup_cons] at hnd
        obtain ⟨hqn, hnd'⟩ := hnd
        obtain ⟨hnd2, hiff⟩ := ih i h hnd'
        have hdm : d ∈ liveIds ps :=
          (mem_liveIds ps d).mpr ⟨⟨d⟩, mem_of_getIdx ps i ⟨d⟩ h, rfl, hd⟩
        have hqd : q.SessionID ≠ d := fun he => hqn (he ▸ hdm)
        refine ⟨List.nodup_cons.mpr ⟨fun hm => hqn ((hiff q.SessionID).mp hm).2, hnd2⟩, ?_⟩
        intro id
        rw [liveIds_cons, if_neg hq, List.mem_cons, List.mem_cons]
        constructor
        · rintro (rfl | hm)
          · exact ⟨hqd, Or.inl rfl⟩
          · obtain ⟨hne, hm'⟩ := (hiff id).mp hm
            exact ⟨hne, Or.inr hm'⟩
        · rintro ⟨hne, rfl | hm⟩
          · exact Or.inl rfl
          · exact Or.inr ((hiff id).mpr ⟨hne, hm⟩)

/-- The registry invariant of claim C10: the `sessions` registry holds
exactly the live session ids, without duplicates. -/
structure RegInv (s : SysState) : Prop where
  nodupReg : s.registry.Nodup
  nodupLive : (liveIds s.procs).Nodup
  mem_iff : ∀ id, id ∈ s.registry ↔ id ∈ liveIds s.procs

theorem regInv_init : RegInv ⟨[], []⟩ :=
  ⟨List.nodup_nil, List.nodup_nil, by intro id; simp [liveIds]⟩

theorem regInv_step (s : SysState) (op : Op) (h : RegInv s) : RegInv (stepOp s op) := by
  cases op with
  | work => exact h
  | create cfg =>
    show RegInv (match NewRaptorQProcessor cfg s.registry with
      | (Except.ok p, reg) => ⟨s.procs ++ [p], reg⟩
      | (Except.error _, reg) => ⟨s.procs, reg⟩)
    rw [NewRaptorQProcessor, raptorq_init_session]
    by_cases hv : validConfig cfg
    · rw [if_pos hv, if_neg (freshSessionId_ne_zero s.registry)]
      have hfresh : freshSessionId s.registry ∉ liveIds s.procs :=
        fun hm => freshSessionId_not_mem s.registry ((h.mem_iff _).mpr hm)
      refine ⟨?_, ?_, ?_⟩
      · exact List.nodup_cons.mpr ⟨freshSessionId_not_mem s.registry, h.nodupReg⟩
      · show (liveIds (s.procs ++ [⟨freshSessionId s.registry⟩])).Nodup
        rw [liveIds_append_single, if_neg (freshSessionId_ne_zero s.registry)]
        simp only [List.nodup_append, List.nodup_cons, List.not_mem_nil,
          not_false_iff, List.nodup_nil, true_and, and_true]
        refine ⟨h.nodupLive, ?_⟩
        intro a ha
        simp only [List.mem_singleton]
        intro he
        exact hfresh (he ▸ ha)
      · intro id
        show id ∈ freshSessionId s.registry :: s.registry ↔
          id ∈ liveIds (s.procs ++ [⟨freshSessionId s.registry⟩])
        rw [liveIds_append_single, if_neg (freshSessionId_ne_zero s.registry)]
        rw [List.mem_cons, List.mem_append, List.mem_singleton, h.mem_iff id]
        tauto
    · rw [if_neg hv]
      show RegInv (match (Except.error (α := Processor)
          "failed to initialize RaptorQ session", s.registry) with
        | (Except.ok p, reg) => SysState.mk (s.procs ++ [p]) reg
        | (Except.error _, reg) => SysState.mk s.procs reg)
      exact h
  | free i ffiOk =>
    show RegInv (match s.procs[i]? with
      | none => s
      | some p =>
        ⟨s.procs.set i (Free (fun _ => ffiOk) p s.registry).2.1,
          (Free (fun _ => ffiOk) p s.registry).2.2.1⟩)
    cases hpi : s.procs[i]? with
    | none => exact h
    | some p =>
      simp only [Free]
      by_cases hp : p.SessionID ≠ 0
      · rw [if_pos hp]
        cases ffiOk with
        | true =>
          show RegInv ⟨s.procs.set i ⟨0⟩, s.registry.erase p.SessionID⟩
          have hpi' : s.procs[i]? = some ⟨p.SessionID⟩ := by
            cases p
            exact hpi
          obtain ⟨hnd2, hiff⟩ :=
            liveIds_set_zero p.SessionID hp s.procs i hpi' h.nodupLive
          refine ⟨List.Nodup.erase _ h.nodupReg, hnd2, ?_⟩
          intro id
          rw [List.Nodup.mem_erase_iff h.nodupReg, h.mem_iff id, hiff id]
        | false =>
          show RegInv ⟨s.procs.set i p, s.registry⟩
          rw [set_self_of_getIdx s.procs i p hpi]
          exact h
      · rw [if_neg hp]
        show RegInv ⟨s.procs.set i p, s.registry⟩
        rw [set_self_of_getIdx s.procs i p hpi]
        exact h

theorem regInv_run : ∀ (ops : List Op) (s : SysState), RegInv s →
    RegInv (ops.foldl stepOp s) := by
  intro ops
  induction ops with
  | nil => intro s h; exact h
  | cons op ops ih =>
    intro s h
    exact ih (stepOp s op) (regInv_step s op h)

/-! ### Lemmas about error-message containment -/

theorem includesText_append_left (a b : String) : includesText (a ++ b) b := by
  refine ⟨a.data, [], ?_⟩
  simp [String.data_append]

/-! ### Claim theorems -/

/-- C1: for every file `F` and every valid configuration (symbol size in
1–65535, positive redundancy factor, memory budget and concurrency
limit), encoding `F` under an open session and then decoding the
produced symbols with the produced layout document yields a file
byte-for-byte identical to `F`. -/
theorem encode_decode_roundtrip (p : Processor) (cfg : ProcessorConfig)
    (blockSize : Nat) (F : Bytes) (hopen : p.SessionID ≠ 0)
    (hss1 : 1 ≤ cfg.symbolSize) (hss2 : cfg.symbolSize ≤ 65535)
    (hrf : 0 < cfg.redundancyFactor) (hmem : 0 < cfg.maxMemoryMB)
    (hconc : 0 < cfg.concurrencyLimit) :
    ∃ layout store, EncodeFileM p cfg blockSize F = Except.ok (layout, store) ∧
      DecodeSymbolsM p store layout = Except.ok F := by
  refine ⟨(encodeFileModel cfg blockSize F).1, (encodeFileModel cfg blockSize F).2, ?_, ?_⟩
  · rw [EncodeFileM, if_neg hopen]
  · rw [DecodeSymbolsM, if_neg hopen, roundtrip_model]

/-- Witness for C1 at a concrete file and configuration. -/
theorem encode_decode_roundtrip_witness :
    ∃ layout store,
      EncodeFileM ⟨1⟩ ⟨2, 1, 1, 1⟩ 2 [1, 2, 3, 4, 5] = Except.ok (layout, store) ∧
        DecodeSymbolsM ⟨1⟩ store layout = Except.ok [1, 2, 3, 4, 5] :=
  encode_decode_roundtrip ⟨1⟩ ⟨2, 1, 1, 1⟩ 2 [1, 2, 3, 4, 5]
    (by decide) (by decide) (by decide) (by decide) (by decide) (by decide)

/-- C2: on a closed session (SessionID 0) each of EncodeFile,
CreateMetadata and DecodeSymbols fails immediately with the
"session is closed" error, performing no FFI call at all. -/
theorem closed_session_fails_fast (code : Int) (pr : ProcessResult)
    (lastErr : Nat → Option String) (p : Processor)
    (s1 s2 s3 s4 s5 s6 s7 : String) (bs1 bs2 : Nat)
    (hclosed : p.SessionID = 0) :
    EncodeFile code pr lastErr p s1 s2 bs1
        = (Except.error "RaptorQ session is closed", []) ∧
      CreateMetadata code pr lastErr p s3 s4 bs2
        = (Except.error "RaptorQ session is closed", []) ∧
      DecodeSymbols code lastErr p s5 s6 s7
        = (Except.error "RaptorQ session is closed", []) := by
  refine ⟨?_, ?_, ?_⟩ <;>
    simp [EncodeFile, CreateMetadata, DecodeSymbols, hclosed]

/-- Witness for C2 on a concrete closed processor. -/
theorem closed_session_fails_fast_witness :
    EncodeFile (-1) ⟨0, 0, "", [], ""⟩ (fun _ => none) ⟨0⟩ "a" "b" 1
        = (Except.error "RaptorQ session is closed", []) ∧
      CreateMetadata (-1) ⟨0, 0, "", [], ""⟩ (fun _ => none) ⟨0⟩ "c" "d" 2
        = (Except.error "RaptorQ session is closed", []) ∧
      DecodeSymbols (-1) (fun _ => none) ⟨0⟩ "e" "f" "g"
        = (Except.error "RaptorQ session is closed", []) :=
  closed_session_fails_fast (-1) ⟨0, 0, "", [], ""⟩ (fun _ => none) ⟨0⟩
    "a" "b" "c" "d" "e" "f" "g" 1 2 rfl

/-- C3: after a successful Free, a second Free returns false, performs no
underlying free call (the result is the same whatever the library would
answer), leaves SessionID at 0 and the registry unchanged. -/
theorem free_double_noop (f f' : Nat → Bool) (p : Processor) (reg : List Nat)
    (hfirst : (Free f p reg).1 = true) :
    (Free f p reg).2.1.SessionID = 0 ∧
      Free f' (Free f p reg).2.1 (Free f p reg).2.2.1 =
        (false, (Free f p reg).2.1, (Free f p reg).2.2.1, []) := by
  by_cases hp : p.SessionID ≠ 0
  · by_cases hf : f p.SessionID
    · have h1 : Free f p reg =
          (true, ⟨0⟩, reg.erase p.SessionID, [FFICall.freeSession p.SessionID]) := by
        simp only [Free, if_pos hp, hf, if_pos]
      rw [h1]
      exact ⟨rfl, by simp [Free]⟩
    · simp only [Free, if_pos hp] at hfirst
      rw [if_neg hf] at hfirst
      simp at hfirst
  · simp only [Free, if_neg hp] at hfirst
    simp at hfirst

/-- Witness for C3 on a concrete session and registry. -/
theorem free_double_noop_witness :
    (Free (fun _ => true) ⟨3⟩ [3]).2.1.SessionID = 0 ∧
      Free (fun _ => false) (Free (fun _ => true) ⟨3⟩ [3]).2.1
          (Free (fun _ => true) ⟨3⟩ [3]).2.2.1 =
        (false, (Free (fun _ => true) ⟨3⟩ [3]).2.1,
          (Free (fun _ => true) ⟨3⟩ [3]).2.2.1, []) :=
  free_double_noop (fun _ => true) (fun _ => false) ⟨3⟩ [3] (by decide)

/-- C4: GetRecommendedBlockSize over the spec-modelled planner returns 0
exactly when the session is closed; on every open session it is nonzero
for every file size, including a file size of 0. -/
theorem recommended_block_size_zero_iff_closed (cfg : ProcessorConfig)
    (p : Processor) (fileSize : Nat) :
    GetRecommendedBlockSize (recommendedBlockSize cfg) p fileSize = 0 ↔
      p.SessionID = 0 := by
  rw [GetRecommendedBlockSize]
  by_cases h : p.SessionID = 0
  · rw [if_pos h]
    simp [h]
  · rw [if_neg h]
    have := recommendedBlockSize_pos cfg fileSize
    constructor
    · intro h0
      omega
    · intro h0
      exact absurd h0 h

/-- C5: NewRaptorQProcessor rejects each invalid configuration (symbol
size outside 1–65535, zero memory budget, or zero concurrency limit)
with an error and no registration, and for every spec-valid
configuration returns a processor whose nonzero session id is
registered in the process-wide registry. -/
theorem new_processor_validation (cfg : ProcessorConfig) (reg : List Nat) :
    ((cfg.symbolSize < 1 ∨ 65535 < cfg.symbolSize ∨ cfg.maxMemoryMB = 0 ∨
        cfg.concurrencyLimit = 0) →
      NewRaptorQProcessor cfg reg =
        (Except.error "failed to initialize RaptorQ session", reg)) ∧
    (validConfig cfg →
      ∃ pr : Processor, (NewRaptorQProcessor cfg reg).1 = Except.ok pr ∧
        pr.SessionID ≠ 0 ∧ pr.SessionID ∈ (NewRaptorQProcessor cfg reg).2) := by
  constructor
  · intro hbad
    have hnv : ¬ validConfig cfg := by
      rw [validConfig]
      omega
    simp only [NewRaptorQProcessor, raptorq_init_session, if_neg hnv]
    rfl
  · intro hv
    simp only [NewRaptorQProcessor, raptorq_init_session, if_pos hv,
      if_neg (freshSessionId_ne_zero reg)]
    exact ⟨⟨freshSessionId reg⟩, rfl, freshSessionId_ne_zero reg,
      List.mem_cons_self _ _⟩

/-- Witness for C5: a rejected and an accepted concrete configuration. -/
theorem new_processor_validation_witness :
    NewRaptorQProcessor ⟨0, 1, 1, 1⟩ [] =
        (Except.error "failed to initialize RaptorQ session", []) ∧
      ∃ pr : Processor, (NewRaptorQProcessor ⟨2, 1, 1, 1⟩ []).1 = Except.ok pr ∧
        pr.SessionID ≠ 0 ∧ pr.SessionID ∈ (NewRaptorQProcessor ⟨2, 1, 1, 1⟩ []).2 :=
  ⟨(new_processor_validation ⟨0, 1, 1, 1⟩ []).1 (by decide),
    (new_processor_validation ⟨2, 1, 1, 1⟩ []).2 (by decide)⟩

/-- C6 counterexample: a failing EncodeFile call (status code -1) on an
open session whose last-error text is "boom" returns the fixed message
"generic error", which does not contain the cause text — so not every
failing call's message includes the session's last-error text. -/
theorem error_message_missing_cause_cex :
    (EncodeFile (-1) ⟨0, 0, "", [], ""⟩ (fun _ => some "boom") ⟨1⟩ "in" "out" 4).1 =
        Except.error "generic error" ∧
      ¬ includesText "generic error" "boom" := by
  constructor
  · rfl
  · decide

/-- C6 (amended): for every failing EncodeFile, CreateMetadata or
DecodeSymbols call whose status code lies outside the fixed-message
set {0, -1, -2, -3, -4, -5}, the returned error message contains the
session's last-error text verbatim (block naming, when present, comes
from that underlying text). -/
theorem error_message_includes_cause_amended (code : Int) (pr : ProcessResult)
    (le : String) (lastErr : Nat → Option String) (p : Processor)
    (s1 s2 s3 s4 s5 s6 s7 : String) (bs1 bs2 : Nat)
    (hopen : p.SessionID ≠ 0) (hle : lastErr p.SessionID = some le)
    (h0 : code ≠ 0) (h1 : code ≠ -1) (h2 : code ≠ -2) (h3 : code ≠ -3)
    (h4 : code ≠ -4) (h5 : code ≠ -5)
    (hs5 : s5 ≠ "") (hs6 : s6 ≠ "") (hs7 : s7 ≠ "") :
    (∃ m, (EncodeFile code pr lastErr p s1 s2 bs1).1 = Except.error m ∧
        includesText m le) ∧
      (∃ m, (CreateMetadata code pr lastErr p s3 s4 bs2).1 = Except.error m ∧
        includesText m le) ∧
      (∃ m, (DecodeSymbols code lastErr p s5 s6 s7).1 = Except.error m ∧
        includesText m le) := by
  have hgle : getLastErrorGo lastErr p = (le, [FFICall.getLastError p.SessionID]) := by
    rw [getLastErrorGo, if_neg hopen, hle]
  refine ⟨?_, ?_, ?_⟩
  · by_cases c11 : code = -11
    · exact ⟨"IO error: " ++ le,
        by simp [EncodeFile, hopen, h0, h1, h2, h3, h4, h5, hgle, c11],
        includesText_append_left _ le⟩
    · by_cases c12 : code = -12
      · exact ⟨"file not found: " ++ le,
          by simp [EncodeFile, hopen, h0, h1, h2, h3, h4, h5, hgle, c11, c12],
          includesText_append_left _ le⟩
      · by_cases c13 : code = -13
        · exact ⟨"encoding failed: " ++ le,
            by simp [EncodeFile, hopen, h0, h1, h2, h3, h4, h5, hgle, c11, c12, c13],
            includesText_append_left _ le⟩
        · by_cases c15 : code = -15
          · exact ⟨"memory limit exceeded: " ++ le,
              by simp [EncodeFile, hopen, h0, h1, h2, h3, h4, h5, hgle, c11, c12, c13, c15],
              includesText_append_left _ le⟩
          · by_cases c16 : code = -16
            · exact ⟨"concurrency limit reached: " ++ le,
                by simp [EncodeFile, hopen, h0, h1, h2, h3, h4, h5, hgle,
                  c11, c12, c13, c15, c16],
                includesText_append_left _ le⟩
            · exact ⟨"unknown error code " ++ toString code ++ ": " ++ le,
                by simp [EncodeFile, hopen, h0, h1, h2, h3, h4, h5, hgle,
                  c11, c12, c13, c15, c16],
                includesText_append_left _ le⟩
  · by_cases c11 : code = -11
    · exact ⟨"IO error: " ++ le,
        by simp [CreateMetadata, hopen, h0, h1, h2, h3, h4, h5, hgle, c11],
        includesText_append_left _ le⟩
    · by_cases c12 : code = -12
      · exact ⟨"file not found: " ++ le,
          by simp [CreateMetadata, hopen, h0, h1, h2, h3, h4, h5, hgle, c11, c12],
          includesText_append_left _ le⟩
      · by_cases c13 : code = -13
        · exact ⟨"invalid path: " ++ le,
            by simp [CreateMetadata, hopen, h0, h1, h2, h3, h4, h5, hgle, c11, c12, c13],
            includesText_append_left _ le⟩
        · by_cases c14 : code = -14
          · exact ⟨"encoding failed: " ++ le,
              by simp [CreateMetadata, hopen, h0, h1, h2, h3, h4, h5, hgle,
                c11, c12, c13, c14],
              includesText_append_left _ le⟩
          · by_cases c16 : code = -16
            · exact ⟨"memory limit exceeded: " ++ le,
                by simp [CreateMetadata, hopen, h0, h1, h2, h3, h4, h5, hgle,
                  c11, c12, c13, c14, c16],
                includesText_append_left _ le⟩
            · by_cases c17 : code = -17
              · exact ⟨"concurrency limit reached: " ++ le,
                  by simp [CreateMetadata, hopen, h0, h1, h2, h3, h4, h5, hgle,
                    c11, c12, c13, c14, c16, c17],
                  includesText_append_left _ le⟩
              · exact ⟨"unknown error code " ++ toString code ++ ": " ++ le,
                  by simp [CreateMetadata, hopen, h0, h1, h2, h3, h4, h5, hgle,
                    c11, c12, c13, c14, c16, c17],
                  includesText_append_left _ le⟩
  · by_cases c11 : code = -11
    · exact ⟨"IO error: " ++ le,
        by simp [DecodeSymbols, hopen, hs5, hs6, hs7, h0, h1, h2, h3, h4, h5, hgle, c11],
        includesText_append_left _ le⟩
    · by_cases c12 : code = -12
      · exact ⟨"file not found: " ++ le,
          by simp [DecodeSymbols, hopen, hs5, hs6, hs7, h0, h1, h2, h3, h4, h5, hgle,
            c11, c12],
          includesText_append_left _ le⟩
      · by_cases c14 : code = -14
        · exact ⟨"decoding failed: " ++ le,
            by simp [DecodeSymbols, hopen, hs5, hs6, hs7, h0, h1, h2, h3, h4, h5, hgle,
              c11, c12, c14],
            includesText_append_left _ le⟩
        · by_cases c15 : code = -15
          · exact ⟨"memory limit exceeded: " ++ le,
              by simp [DecodeSymbols, hopen, hs5, hs6, hs7, h0, h1, h2, h3, h4, h5, hgle,
                c11, c12, c14, c15],
              includesText_append_left _ le⟩
          · by_cases c16 : code = -16
            · exact ⟨"concurrency limit reached: " ++ le,
                by simp [DecodeSymbols, hopen, hs5, hs6, hs7, h0, h1, h2, h3, h4, h5, hgle,
                  c11, c12, c14, c15, c16],
                includesText_append_left _ le⟩
            · exact ⟨"unknown error code " ++ toString code ++ ": " ++ le,
                by simp [DecodeSymbols, hopen, hs5, hs6, hs7, h0, h1, h2, h3, h4, h5, hgle,
                  c11, c12, c14, c15, c16],
                includesText_append_left _ le⟩

/-- Witness for the amended C6 at status code -12. -/
theorem error_message_includes_cause_amended_witness :
    (∃ m, (EncodeFile (-12) ⟨0, 0, "", [], ""⟩ (fun _ => some "boom") ⟨1⟩ "a" "b" 1).1 =
        Except.error m ∧ includesText m "boom") ∧
      (∃ m, (CreateMetadata (-12) ⟨0, 0, "", [], ""⟩ (fun _ => some "boom") ⟨1⟩ "c" "d" 2).1 =
        Except.error m ∧ includesText m "boom") ∧
      (∃ m, (DecodeSymbols (-12) (fun _ => some "boom") ⟨1⟩ "e" "f" "g").1 =
        Except.error m ∧ includesText m "boom") :=
  error_message_includes_cause_amended (-12) ⟨0, 0, "", [], ""⟩ "boom"
    (fun _ => some "boom") ⟨1⟩ "a" "b" "c" "d" "e" "f" "g" 1 2
    (by decide) rfl (by decide) (by decide) (by decide) (by decide) (by decide)
    (by decide) (by decide) (by decide) (by decide)

/-- C7: whenever some block of an encoder-produced layout has fewer
gathered symbols than its reconstruction threshold, DecodeSymbols fails
with an insufficient-symbols error naming a deficient block, and no
output is produced (the result is an error, not a file). -/
theorem insufficient_symbols_fails (p : Processor) (cfg : ProcessorConfig)
    (blockSize : Nat) (F : Bytes) (S : Store) (hopen : p.SessionID ≠ 0)
    (hdef : ∃ r ∈ (encodeFileModel cfg blockSize F).1,
      (gathered S r).length < r.sourceSymbolsCount) :
    ∃ r' ∈ (encodeFileModel cfg blockSize F).1,
      (gathered S r').length < r'.sourceSymbolsCount ∧
        DecodeSymbolsM p S (encodeFileModel cfg blockSize F).1 =
          Except.error ("decoding failed: insufficient symbols in block "
            ++ toString r'.blockId) := by
  obtain ⟨r', hr', hd', heq⟩ :=
    decodeBlocks_insufficient cfg.symbolSize cfg.redundancyFactor S
      (encodeFileModel cfg blockSize F).1 []
      (fun r hr => encodeBlocks_records_shape cfg.symbolSize cfg.redundancyFactor
        (blocksOf (effectiveBlockSize cfg blockSize F.length) F) 0 0 0 r hr)
      hdef
  refine ⟨r', hr', hd', ?_⟩
  rw [DecodeSymbolsM, if_neg hopen, decodeSymbolsModel, heq]
  rfl

/-- Witness for C7: decoding from an empty symbol store. -/
theorem insufficient_symbols_fails_witness :
    ∃ r' ∈ (encodeFileModel ⟨2, 1, 1, 1⟩ 3 [1, 2, 3]).1,
      (gathered [] r').length < r'.sourceSymbolsCount ∧
        DecodeSymbolsM ⟨1⟩ [] (encodeFileModel ⟨2, 1, 1, 1⟩ 3 [1, 2, 3]).1 =
          Except.error ("decoding failed: insufficient symbols in block "
            ++ toString r'.blockId) :=
  insufficient_symbols_fails ⟨1⟩ ⟨2, 1, 1, 1⟩ 3 [1, 2, 3] []
    (by decide) (by decide)

/-- C8: DecodeSymbols on an open session with any empty path argument
fails with the exact empty-arguments error, without invoking the
underlying decode operation. -/
theorem decode_empty_args_rejected (code : Int) (lastErr : Nat → Option String)
    (p : Processor) (sd op lp : String) (hopen : p.SessionID ≠ 0)
    (hempty : sd = "" ∨ op = "" ∨ lp = "") :
    DecodeSymbols code lastErr p sd op lp =
      (Except.error "symbolsDir, outputPath, and layoutPath cannot be empty", []) := by
  rw [DecodeSymbols, if_neg hopen, if_pos hempty]

/-- Witness for C8 with an empty symbols directory. -/
theorem decode_empty_args_rejected_witness :
    DecodeSymbols 0 (fun _ => none) ⟨1⟩ "" "a" "b" =
      (Except.error "symbolsDir, outputPath, and layoutPath cannot be empty", []) :=
  decode_empty_args_rejected 0 (fun _ => none) ⟨1⟩ "" "a" "b"
    (by decide) (Or.inl rfl)

/-- C9: when the underlying free operation reports failure on an open
session, Free returns false and leaves all state unchanged — the
processor keeps its nonzero SessionID and the registry is untouched. -/
theorem free_underlying_failure_noop (f : Nat → Bool) (p : Processor)
    (reg : List Nat) (hopen : p.SessionID ≠ 0) (hfail : f p.SessionID = false) :
    Free f p reg = (false, p, reg, [FFICall.freeSession p.SessionID]) := by
  simp [Free, hopen, hfail]

/-- Witness for C9 on a concrete open session. -/
theorem free_underlying_failure_noop_witness :
    Free (fun _ => false) ⟨2⟩ [2] = (false, ⟨2⟩, [2], [FFICall.freeSession 2]) :=
  free_underlying_failure_noop (fun _ => false) ⟨2⟩ [2] (by decide) rfl

/-- C10: after any sequence of operations from the initial state, the
process-wide sessions registry contains exactly the session ids of
processors that were successfully created and not yet successfully
freed; only creation adds an entry, only a successful Free removes
one (registry accesses are modelled as atomic, matching the mutex
discipline of the Go code). -/
theorem sessions_registry_invariant (ops : List Op) (id : Nat) :
    id ∈ (runOps ops).registry ↔
      ∃ p, p ∈ (runOps ops).procs ∧ p.SessionID = id ∧ id ≠ 0 := by
  have h := regInv_run ops ⟨[], []⟩ regInv_init
  rw [runOps]
  rw [h.mem_iff id, mem_liveIds]

end RqGo
